import Mathlib

/-!
# Verification of the TFTPServer core against its specification

This file shallowly embeds the security-relevant core of the TFTPServer
repository (C++): the packet codec (`src/tftp_packet.cpp`), the path-safety
check (`src/tftp_util.cpp`), and the per-transfer session loops of
`src/internal/tftp_server_impl.cpp` (`HandleReadRequest` / `HandleWriteRequest`).

Modelling conventions:
* C++ `std::string` and `std::vector<uint8_t>` values are modelled as
  `List Nat` of byte values; `uint16_t` fields are modelled as `Nat` with
  wrap-around (`% 65536`) made explicit where the C++ performs arithmetic.
* The byte-offset cursor of the C++ parser is modelled by passing the
  suffix of the byte list that starts at the cursor; `offset >= data.size()`
  becomes "the suffix is empty", and the `SIZE_MAX` failure signal of
  `read_string_validated` becomes `Option.none`.
* `std::unordered_map<std::string, std::string>` is modelled as an
  association list without duplicate keys; `m[k] = v` is `mapInsert`, which
  overwrites the mapped value of an existing key and appends fresh keys.
  Map equality is equality of bindings; the (unspecified) iteration order of
  the C++ container is fixed to the list order.
* Filesystem-dependent calls (`std::filesystem::absolute`,
  `weakly_canonical`, `relative`) are abstracted as an oracle record
  `FsOracle`; a call that throws is modelled as `Except.error ()`.
* Network sends are modelled as appending `(destination, packet)` to a
  trace and always succeed; a `ReceivePacket` call that times out, fails at
  the socket level, or fails to deserialize is modelled as `Option.none`
  (all three make the C++ helper return `false`).
-/

namespace TFTPServer
/-! ## Data model (`tftp_common.h`, `tftp_packet.h`)

`OpCode` and `ErrorCode` are `enum class : uint16_t` in the C++; since
`Deserialize` stores `static_cast<OpCode>(wire_value)` for arbitrary wire
values before validating, we model both as raw `Nat` values:
ReadRequest = 1, WriteRequest = 2, Data = 3, Acknowledge = 4, Error = 5,
OACK = 6; NotDefined = 0, FileNotFound = 1, AccessViolation = 2,
DiskFull = 3, IllegalOperation = 4, UnknownTransferId = 5, FileExists = 6,
NoSuchUser = 7. -/

inductive TransferMode where
  | netascii
  | octet
  | mail
deriving DecidableEq, Repr

/-- Mirror of class `TftpPacket`'s data members (`tftp_packet.h`). -/
structure TftpPacket where
  op_code : Nat
  block_number : Nat
  error_code : Nat
  filename : List Nat
  mode : TransferMode
  data : List Nat
  error_message : List Nat
  options : List (List Nat × List Nat)
deriving DecidableEq, Repr

/-- The member-initializer defaults of `TftpPacket`, which are also exactly
what `TftpPacket::ResetState` restores. -/
def defaultPacket : TftpPacket :=
  { op_code := 1
    block_number := 0
    error_code := 0
    filename := []
    mode := TransferMode.octet
    data := []
    error_message := []
    options := [] }

/-- `s.toList.map Char.toNat`: byte list of an ASCII string literal. -/
def strBytes (s : String) : List Nat := s.toList.map Char.toNat

/-! ## Association-list model of `std::unordered_map<std::string, std::string>` -/

/-- `m[k] = v` on `std::unordered_map`: overwrite the mapped value if the
key is present, otherwise add the binding. -/
def mapInsert (k v : List Nat) : List (List Nat × List Nat) → List (List Nat × List Nat)
  | [] => [(k, v)]
  | (k₀, v₀) :: rest =>
    if k₀ = k then (k₀, v) :: rest else (k₀, v₀) :: mapInsert k v rest

/-- `m.find(k)`: the mapped value of `k`, if present. -/
def mapLookup (k : List Nat) : List (List Nat × List Nat) → Option (List Nat)
  | [] => none
  | (k₀, v₀) :: rest => if k₀ = k then some v₀ else mapLookup k rest

/-! ## `read_string_validated` (`tftp_packet.cpp`, anonymous namespace)

The C++ helper walks a cursor `offset` through `data`, reading at most
`max_length` non-zero bytes:
* `offset >= data.size()` on entry is a failure (empty suffix here);
* reaching the end of the data without a `0x00` terminator is a failure;
* stopping because `max_length` bytes were read while the next byte is
  still non-zero is a failure (string exceeds the per-field maximum);
* otherwise the `0x00` terminator is skipped and the bytes read returned.
Failure is signalled by `offset = SIZE_MAX` in the C++, `none` here. -/

/-- The character-reading loop of `read_string_validated`: read bytes while
fuel remains, the suffix is non-empty, and the next byte is non-zero.
Returns the bytes read and the remaining suffix. -/
def readRaw : Nat → List Nat → List Nat × List Nat
  | 0, l => ([], l)
  | _ + 1, [] => ([], [])
  | fuel + 1, b :: rest =>
    if b = 0 then ([], b :: rest)
    else
      let (s, r) := readRaw fuel rest
      (b :: s, r)

/-- `read_string_validated(data, offset, max_length)`, with the suffix of
`data` at `offset` passed in place of the cursor.  `some (s, r)` means the
string `s` was read and the cursor now sits at the suffix `r` (just past
the terminator); `none` is the `offset = SIZE_MAX` failure signal. -/
def read_string_validated (data : List Nat) (maxLength : Nat) :
    Option (List Nat × List Nat) :=
  match data with
  | [] => none
  | _ :: _ =>
    match readRaw maxLength data with
    | (_, []) => none
    | (s, b :: r) => if b = 0 then some (s, r) else none

/-! ## Transfer-mode conversions (`tftp_packet.cpp`, anonymous namespace) -/

/-- `mode_to_string`. -/
def mode_to_string : TransferMode → List Nat
  | TransferMode.netascii => strBytes "netascii"
  | TransferMode.octet => strBytes "octet"
  | TransferMode.mail => strBytes "mail"

/-- `std::tolower` on an ASCII byte (the C locale used by the codec). -/
def asciiToLower (b : Nat) : Nat := if 65 ≤ b ∧ b ≤ 90 then b + 32 else b

/-- `string_to_mode`; the C++ throws `TftpException` on an unknown mode
string, which `Deserialize` catches and turns into failure, so the model
returns an `Option`. -/
def string_to_mode (s : List Nat) : Option TransferMode :=
  let lower := s.map asciiToLower
  if lower = strBytes "netascii" then some TransferMode.netascii
  else if lower = strBytes "octet" then some TransferMode.octet
  else if lower = strBytes "mail" then some TransferMode.mail
  else none

/-! ## Serialization (`TftpPacket::Serialize`) -/

/-- Big-endian bytes of a `uint16_t` value (`htons` + `memcpy`).  All C++
call sites pass a genuine `uint16_t`, hence the explicit `% 65536`. -/
def u16be (n : Nat) : List Nat := [n % 65536 / 256, n % 256]

/-- The `(option cstr, value cstr)*` region written by `Serialize` for
RRQ/WRQ/OACK packets. -/
def encodeOptions (opts : List (List Nat × List Nat)) : List Nat :=
  (opts.map (fun kv => kv.1 ++ [0] ++ kv.2 ++ [0])).flatten

/-- `TftpPacket::Serialize`.  The `default:` branch of the C++ switch
returns an empty vector. -/
def Serialize (p : TftpPacket) : List Nat :=
  if p.op_code = 1 ∨ p.op_code = 2 then
    u16be p.op_code ++ p.filename ++ [0] ++ mode_to_string p.mode ++ [0] ++
      encodeOptions p.options
  else if p.op_code = 3 then
    u16be 3 ++ u16be p.block_number ++ p.data
  else if p.op_code = 4 then
    u16be 4 ++ u16be p.block_number
  else if p.op_code = 5 then
    u16be 5 ++ u16be p.error_code ++ p.error_message ++ [0]
  else if p.op_code = 6 then
    u16be 6 ++ encodeOptions p.options
  else []

/-! ## Deserialization (`TftpPacket::Deserialize`) -/

/-- The RRQ/WRQ option loop of `Deserialize`: runs while the cursor has
not reached the end of the packet and fewer than `kMaxOptionsCount = 16`
pairs were read (`budget` is `16 - options_count`); after the loop, having
consumed the full budget with bytes still remaining is a failure.  An
empty option name breaks out of the loop successfully. -/
def parseOptions : List Nat → Nat → List (List Nat × List Nat) →
    Option (List (List Nat × List Nat))
  | rest, 0, acc => if rest = [] then some acc else none
  | rest, budget + 1, acc =>
    if rest = [] then some acc
    else
      match read_string_validated rest 64 with
      | none => none
      | some (name, r₁) =>
        if name = [] then some acc
        else if r₁ = [] then none
        else
          match read_string_validated r₁ 64 with
          | none => none
          | some (value, r₂) =>
            if value = [] then none
            else parseOptions r₂ budget (mapInsert name value acc)

/-- The `kReadRequest` / `kWriteRequest` case of `Deserialize`; `p₁` is the
packet state after the opcode assignment, `rest` the suffix at offset 2.
Filename, mode and options are parsed into temporaries and assigned to the
members only when everything succeeded. -/
def deserializeRequest (p₁ : TftpPacket) (rest : List Nat) : Bool × TftpPacket :=
  match read_string_validated rest 255 with
  | none => (false, p₁)
  | some (fn, r₁) =>
    if fn = [] then (false, p₁)
    else if r₁ = [] then (false, p₁)
    else
      match read_string_validated r₁ 255 with
      | none => (false, p₁)
      | some (modeStr, r₂) =>
        if modeStr = [] then (false, p₁)
        else
          match string_to_mode modeStr with
          | none => (false, p₁)
          | some m =>
            match parseOptions r₂ 16 [] with
            | none => (false, p₁)
            | some opts =>
              (true, { p₁ with filename := fn, mode := m, options := opts })

/-- `TftpPacket::Deserialize`.  The C++ mutates the packet object and
returns `bool`; the model returns the pair (return value, final object
state).  `ResetState()` runs first; the wire opcode is then assigned to
the `op_code_` member *before* it is validated, so failure paths after
that point leave the wire opcode in the object. -/
def Deserialize (data : List Nat) : Bool × TftpPacket :=
  if data = [] then (false, defaultPacket)
  else if data.length < 4 ∨ 516 < data.length then (false, defaultPacket)
  else
    match data with
    | b₀ :: b₁ :: rest =>
      let op := b₀ * 256 + b₁
      let p₁ : TftpPacket := { defaultPacket with op_code := op }
      if op < 1 ∨ 6 < op then (false, p₁)
      else if op = 1 ∨ op = 2 then deserializeRequest p₁ rest
      else if op = 3 then
        match rest with
        | b₂ :: b₃ :: payload =>
          let p₂ := { p₁ with block_number := b₂ * 256 + b₃ }
          if 512 < payload.length then (false, p₂)
          else (true, { p₂ with data := payload })
        | _ => (false, p₁)
      else if op = 4 then
        if data.length ≠ 4 then (false, p₁)
        else
          match rest with
          | b₂ :: b₃ :: _ => (true, { p₁ with block_number := b₂ * 256 + b₃ })
          | _ => (false, p₁)
      else if op = 5 then
        if data.length < 5 then (false, p₁)
        else
          match rest with
          | b₂ :: b₃ :: msgBytes =>
            let code := b₂ * 256 + b₃
            if 7 < code then (false, p₁)
            else
              match read_string_validated msgBytes 255 with
              | none => (false, p₁)
              | some (msg, _) =>
                (true, { p₁ with error_code := code, error_message := msg })
          | _ => (false, p₁)
      else
        match parseOptions rest 16 [] with
        | none => (false, p₁)
        | some opts => (true, { p₁ with options := opts })
    | _ => (false, defaultPacket)

/-! ## Path safety (`util::IsPathSecure`, `tftp_util.cpp`)

The POSIX (`#else`) branch of the C++ is modelled; the preferred path
separator is `/` (byte 47).  The three `std::filesystem` calls that touch
the real filesystem are abstracted as an oracle; a call that throws
(`filesystem_error` or any `std::exception`, both caught by the C++ and
turned into `return false`) is modelled as `Except.error ()`. -/

/-- Oracle for the `std::filesystem` calls made by `IsPathSecure`. -/
structure FsOracle where
  absolute : List Nat → Except Unit (List Nat)
  weaklyCanonical : List Nat → Except Unit (List Nat)
  relative : List Nat → List Nat → Except Unit (List Nat)

/-- `pat.isPrefixOf` some tail of `s`: the model of
`std::string::find(pat) != npos`. -/
def containsSub (s pat : List Nat) : Bool :=
  if pat.isPrefixOf s then true
  else
    match s with
    | [] => false
    | _ :: rest => containsSub rest pat

/-- The `dangerous_patterns` vector of `IsPathSecure`, as byte strings. -/
def dangerousPatterns : List (List Nat) :=
  [strBytes "..", strBytes "..\\", strBytes "../", strBytes "\\..\\",
   strBytes "/..", strBytes ".\\", strBytes "./", strBytes "\\.\\",
   strBytes "/./", strBytes "~", strBytes "$", strBytes "%",
   strBytes "<", strBytes ">", strBytes "|", strBytes "?", strBytes "*"]

/-- The pattern loop of `IsPathSecure`: any dangerous pattern occurring as
a substring of the path. -/
def hasDangerousPattern (path : List Nat) : Bool :=
  dangerousPatterns.any (fun pat => containsSub path pat)

/-- `std::filesystem::path::operator/` on POSIX for a relative right-hand
side (the absolute-path case was already rejected): append the preferred
separator unless the left side is empty or already ends in one. -/
def pathAppend (a b : List Nat) : List Nat :=
  if a = [] then b
  else if a.getLast? = some 47 then a ++ b
  else a ++ 47 :: b

/-- The trailing-separator adjustment of `canonical_root_str`:
`if (!empty && back != separator) str += separator`. -/
def withTrailingSep (p : List Nat) : List Nat :=
  if p ≠ [] ∧ p.getLast? ≠ some 47 then p ++ [47] else p

/-- `util::IsPathSecure(path, root_dir)` (`tftp_util.cpp:9`), POSIX
branch, with filesystem behaviour supplied by the oracle `fs`. -/
def IsPathSecure (fs : FsOracle) (path rootDir : List Nat) : Bool :=
  if path = [] ∨ rootDir = [] then false
  else if path.contains 0 then false
  else if path.head? = some 47 then false
  else if hasDangerousPattern path then false
  else
    match fs.absolute rootDir with
    | Except.error _ => false
    | Except.ok rootPath =>
      match fs.weaklyCanonical rootPath with
      | Except.error _ => false
      | Except.ok canonicalRoot =>
        match fs.weaklyCanonical (pathAppend rootPath path) with
        | Except.error _ => false
        | Except.ok canonicalTarget =>
          let rootStr := withTrailingSep canonicalRoot
          if ¬ (rootStr.length ≤ canonicalTarget.length ∧
                canonicalTarget.take rootStr.length = rootStr) then false
          else
            match fs.relative canonicalTarget canonicalRoot with
            | Except.error _ => false
            | Except.ok rel =>
              if containsSub rel (strBytes "..") then false else true

/-- Path components: split a byte string at every separator byte.  Used
to state the "no `..` component" conclusion of the containment claim. -/
def splitOnSep (sep : Nat) : List Nat → List (List Nat)
  | [] => [[]]
  | b :: rest =>
    if b = sep then [] :: splitOnSep sep rest
    else
      match splitOnSep sep rest with
      | [] => [[b]]
      | c :: cs => (b :: c) :: cs

/-! ## Session engine (`tftp_server_impl.cpp`)

`HandleReadRequest` and `HandleWriteRequest` are loops around
`ReceivePacket` / `SendPacket` on the session's own UDP socket.  The model:
* a TID (the `(ip, port)` of a `sockaddr_in`) is an opaque `Nat`;
* one `ReceivePacket` call consumes one element of an `incoming` list;
  `none` models a timeout, socket error, or undecodable datagram (each
  makes `ReceivePacket` return `false`), `some (src, pkt)` a decoded
  packet `pkt` received from source address `src`;
* `SendPacket sock addr pkt` and the raw OACK `sendto` are modelled as
  appending `(addr, pkt)` to the `sent` trace and always succeed;
* the storage callbacks are abstracted: the RRQ model takes the
  `read_callback_` result as an input, and the WRQ model records the
  buffer that would be passed to `write_callback_` (the commit). -/

/-- Transfer identifier: the source address of a datagram. -/
abbrev TID := Nat

/-- Result of one `ReceivePacket` call. -/
abbrev RecvResult := Option (TID × TftpPacket)

/-- `TftpPacket::CreateAck`. -/
def ackPacket (b : Nat) : TftpPacket :=
  { defaultPacket with op_code := 4, block_number := b }

/-- `TftpPacket::CreateData` (call sites always pass at most 512 bytes,
so the size guard that throws never fires there). -/
def dataPacket (b : Nat) (payload : List Nat) : TftpPacket :=
  { defaultPacket with op_code := 3, block_number := b, data := payload }

/-- `TftpPacket::CreateError`. -/
def errorPacket (code : Nat) (msg : List Nat) : TftpPacket :=
  { defaultPacket with op_code := 5, error_code := code, error_message := msg }

/-- The OACK datagram of `HandleWriteRequest`: opcode 6 followed by the
negotiated option pairs (its manual byte layout coincides with
`Serialize` of this packet value). -/
def oackPacket (opts : List (List Nat × List Nat)) : TftpPacket :=
  { defaultPacket with op_code := 6, options := opts }

/-- Leading decimal digits of a byte string. -/
def leadingDigits (s : List Nat) : List Nat :=
  s.takeWhile (fun b => decide (48 ≤ b ∧ b ≤ 57))

/-- Numeric value of a decimal digit string. -/
def digitsValue (ds : List Nat) : Nat :=
  ds.foldl (fun acc b => acc * 10 + (b - 48)) 0

/-- Model of `std::stoi` restricted to the digit-leading strings that occur
on the wire (leading whitespace and signs are not modelled): `none` is a
thrown `invalid_argument` (no digits) or `out_of_range` (beyond `INT_MAX`),
both caught by the option-negotiation code. -/
def stoiModel (s : List Nat) : Option Nat :=
  let ds := leadingDigits s
  if ds = [] then none
  else
    let v := digitsValue ds
    if v ≤ 2147483647 then some v else none

/-- Model of `std::stoull` under the same restriction; `none` is a thrown
exception (caught: `has_expected_size` then stays false). -/
def stoullModel (s : List Nat) : Option Nat :=
  let ds := leadingDigits s
  if ds = [] then none
  else
    let v := digitsValue ds
    if v < 18446744073709551616 then some v else none

/-- Option names recognized by the option-negotiation code. -/
def tsizeName : List Nat := strBytes "tsize"

def blksizeName : List Nat := strBytes "blksize"

def timeoutName : List Nat := strBytes "timeout"

def str512 : List Nat := strBytes "512"

def str6 : List Nat := strBytes "6"

/-- The per-option value negotiation inside the OACK construction loop of
`HandleWriteRequest`: `tsize` is echoed, `blksize` is echoed when in
8..=65464 else replaced by `"512"`, `timeout` is echoed when in 1..=255
else replaced by `"6"`, and any other option's value is left untouched. -/
def negotiateOptionValue (name value : List Nat) : List Nat :=
  if name = tsizeName then value
  else if name = blksizeName then
    match stoiModel value with
    | some b => if 8 ≤ b ∧ b ≤ 65464 then value else str512
    | none => str512
  else if name = timeoutName then
    match stoiModel value with
    | some t => if 1 ≤ t ∧ t ≤ 255 then value else str6
    | none => str6
  else value

/-- The option pairs written into the OACK datagram: every option pair of
the request, in order, with the negotiated value. -/
def BuildOackOptions (opts : List (List Nat × List Nat)) :
    List (List Nat × List Nat) :=
  opts.map (fun kv => (kv.1, negotiateOptionValue kv.1 kv.2))

/-- Error message strings used by the session code. -/
def msgIllegalOperation : List Nat := strBytes "Illegal operation"

def msgFileSizeTooLarge : List Nat := strBytes "File size too large"

def msgFileSizeExceedsTsize : List Nat := strBytes "File size exceeds tsize"

def msgFileNotFound : List Nat := strBytes "File not found"

/-- The distinct exit points of the `HandleWriteRequest` receive loop. -/
inductive WrqOutcome where
  | recvFailed
  | illegalOp
  | blockMismatch
  | sizeExceeded
  | tsizeExceeded
  | committed
deriving DecidableEq, Repr

/-- Final state of a `HandleWriteRequest` run: the send trace, the final
`file_data` buffer, and the exit taken.  `outcome = committed` means the
buffer was handed to `write_callback_`. -/
structure WrqResult where
  sent : List (TID × TftpPacket)
  buf : List Nat
  outcome : WrqOutcome
deriving DecidableEq, Repr

/-- The `tsize` safety check of `HandleWriteRequest`:
`has_expected_size && file_data.size() > expected_file_size + kMaxDataSize`. -/
def tsizeExceeds (tsize : Option Nat) (size : Nat) : Bool :=
  match tsize with
  | none => false
  | some ts => decide (ts + 512 < size)

/-- The `do { ... } while (!last_packet)` receive loop of
`HandleWriteRequest` (`tftp_server_impl.cpp:541`).  Per iteration: receive
(failure aborts); a non-DATA packet draws `Error(IllegalOperation)` to the
client and aborts; a block number other than `expected_block` aborts
silently; otherwise the payload is appended, `ACK(expected_block)` is sent
*to the source address of the DATA packet*, and only then are the
`max_transfer_size` and `tsize` caps checked (each sending
`Error(DiskFull)` to the client and aborting); a payload shorter than 512
bytes ends the loop and commits the buffer.  `expected_block` is a
`uint16_t`, hence the `% 65536` on increment. -/
def wrqLoop (client : TID) (maxSize : Nat) (tsize : Option Nat) :
    List RecvResult → Nat → List Nat → List (TID × TftpPacket) → WrqResult
  | [], _, fileData, sent => ⟨sent, fileData, WrqOutcome.recvFailed⟩
  | none :: _, _, fileData, sent => ⟨sent, fileData, WrqOutcome.recvFailed⟩
  | some (src, pkt) :: rest, expected, fileData, sent =>
    if pkt.op_code ≠ 3 then
      ⟨sent ++ [(client, errorPacket 4 msgIllegalOperation)], fileData,
        WrqOutcome.illegalOp⟩
    else if pkt.block_number ≠ expected then
      ⟨sent, fileData, WrqOutcome.blockMismatch⟩
    else if maxSize < (fileData ++ pkt.data).length then
      ⟨sent ++ [(src, ackPacket expected)] ++
          [(client, errorPacket 3 msgFileSizeTooLarge)],
        fileData ++ pkt.data, WrqOutcome.sizeExceeded⟩
    else if tsizeExceeds tsize (fileData ++ pkt.data).length then
      ⟨sent ++ [(src, ackPacket expected)] ++
          [(client, errorPacket 3 msgFileSizeExceedsTsize)],
        fileData ++ pkt.data, WrqOutcome.tsizeExceeded⟩
    else if pkt.data.length < 512 then
      ⟨sent ++ [(src, ackPacket expected)], fileData ++ pkt.data,
        WrqOutcome.committed⟩
    else
      wrqLoop client maxSize tsize rest ((expected + 1) % 65536)
        (fileData ++ pkt.data) (sent ++ [(src, ackPacket expected)])

/-- The `expected_file_size` / `has_expected_size` extraction of
`HandleWriteRequest`: look up the `tsize` option and parse it with
`std::stoull`; a missing option or a parse failure leaves no expected
size. -/
def wrqTsize (reqOptions : List (List Nat × List Nat)) : Option Nat :=
  match mapLookup tsizeName reqOptions with
  | some v => stoullModel v
  | none => none

/-- `HandleWriteRequest` after the path checks: extract `tsize` from the
request options, answer an option-bearing request with an OACK and an
option-free one with `ACK(0)`, then run the receive loop with
`expected_block = 1` and an empty buffer. -/
def wrqRun (client : TID) (maxSize : Nat)
    (reqOptions : List (List Nat × List Nat)) (incoming : List RecvResult) :
    WrqResult :=
  if reqOptions ≠ [] then
    wrqLoop client maxSize (wrqTsize reqOptions) incoming 1 []
      [(client, oackPacket (BuildOackOptions reqOptions))]
  else
    wrqLoop client maxSize (wrqTsize reqOptions) incoming 1 []
      [(client, ackPacket 0)]

/-- The distinct exit points of `HandleReadRequest`. -/
inductive RrqOutcome where
  | fileNotFound
  | sizeExceeded
  | recvFailed
  | invalidAck
  | completed
deriving DecidableEq, Repr

/-- Final state of a `HandleReadRequest` run. -/
structure RrqResult where
  sent : List (TID × TftpPacket)
  outcome : RrqOutcome
deriving DecidableEq, Repr

/-- The `do { ... } while (!last_packet)` send loop of
`HandleReadRequest` (`tftp_server_impl.cpp:354`).  Per iteration: send
`DATA(block_number)` carrying the next at-most-512-byte slice to the
client, then receive; a receive failure aborts; any packet that is not
`ACK(block_number)` aborts (`"Invalid ACK"`) — the source address of the
ACK is never inspected; a full 512-byte slice continues with the next
block, a shorter one ends the transfer.  `block_number` is a `uint16_t`. -/
def rrqLoop (client : TID) (fileData : List Nat) :
    List RecvResult → Nat → Nat → List (TID × TftpPacket) → RrqResult
  | incoming, blockNumber, offset, sent =>
    match incoming with
    | [] =>
      ⟨sent ++ [(client, dataPacket blockNumber
          ((fileData.drop offset).take (min (fileData.length - offset) 512)))],
        RrqOutcome.recvFailed⟩
    | none :: _ =>
      ⟨sent ++ [(client, dataPacket blockNumber
          ((fileData.drop offset).take (min (fileData.length - offset) 512)))],
        RrqOutcome.recvFailed⟩
    | some (_, pkt) :: rest =>
      if pkt.op_code ≠ 4 ∨ pkt.block_number ≠ blockNumber then
        ⟨sent ++ [(client, dataPacket blockNumber
            ((fileData.drop offset).take (min (fileData.length - offset) 512)))],
          RrqOutcome.invalidAck⟩
      else if min (fileData.length - offset) 512 < 512 then
        ⟨sent ++ [(client, dataPacket blockNumber
            ((fileData.drop offset).take (min (fileData.length - offset) 512)))],
          RrqOutcome.completed⟩
      else
        rrqLoop client fileData rest ((blockNumber + 1) % 65536)
          (offset + min (fileData.length - offset) 512)
          (sent ++ [(client, dataPacket blockNumber
            ((fileData.drop offset).take (min (fileData.length - offset) 512)))])

/-- `HandleReadRequest` after the path checks: `read_callback_` failure
draws `Error(FileNotFound)`, a file larger than `max_transfer_size` draws
`Error(DiskFull)`, otherwise the block loop starts at block 1, offset 0. -/
def rrqRun (client : TID) (readResult : Option (List Nat)) (maxSize : Nat)
    (incoming : List RecvResult) : RrqResult :=
  match readResult with
  | none => ⟨[(client, errorPacket 1 msgFileNotFound)], RrqOutcome.fileNotFound⟩
  | some fileData =>
    if maxSize < fileData.length then
      ⟨[(client, errorPacket 3 msgFileSizeTooLarge)], RrqOutcome.sizeExceeded⟩
    else rrqLoop client fileData incoming 1 0 []

/-! ## Derived definitions used by the codec statements -/

/-- `List.foldl` of `mapInsert` over a list of wire option pairs: the
contents of `temp_options` after the option loop. -/
def foldInsert (acc opts : List (List Nat × List Nat)) :
    List (List Nat × List Nat) :=
  List.foldl (fun m kv => mapInsert kv.1 kv.2 m) acc opts

/-- The value of the last occurrence of the key `k` in a wire option list. -/
def lastValueOf (k : List Nat) : List (List Nat × List Nat) → Option (List Nat)
  | [] => none
  | (k₀, v) :: rest =>
    match lastValueOf k rest with
    | some v' => some v'
    | none => if k₀ = k then some v else none

/-! ## Well-formed packet values

A well-formed `TftpPacket` value is one that the C++ code can actually
produce for its opcode (the factory `Create*` functions set exactly the
fields of that message kind and leave the rest at their defaults): the
per-field length limits of the codec hold, `uint16_t` fields are in range,
string bytes are non-zero `uint8_t` values (a `0x00` inside a string would
break its cstr encoding), option names are distinct (they are keys of an
`unordered_map`), and fields unused by the opcode hold their defaults. -/

/-- Per-field constraints on one option pair. -/
def optPairWF (kv : List Nat × List Nat) : Prop :=
  kv.1 ≠ [] ∧ kv.1.length ≤ 64 ∧ (∀ b ∈ kv.1, 0 < b ∧ b < 256) ∧
  kv.2 ≠ [] ∧ kv.2.length ≤ 64 ∧ (∀ b ∈ kv.2, 0 < b ∧ b < 256)

instance (kv : List Nat × List Nat) : Decidable (optPairWF kv) := by
  unfold optPairWF
  infer_instance

/-- Constraints on an options map. -/
def optionsWF (opts : List (List Nat × List Nat)) : Prop :=
  opts.length ≤ 16 ∧ (∀ kv ∈ opts, optPairWF kv) ∧
  (opts.map Prod.fst).Nodup

instance (opts : List (List Nat × List Nat)) : Decidable (optionsWF opts) := by
  unfold optionsWF
  infer_instance

/-- Well-formed RRQ/WRQ fields. -/
def requestFieldsWF (p : TftpPacket) : Prop :=
  p.filename ≠ [] ∧ p.filename.length ≤ 255 ∧
  (∀ b ∈ p.filename, 0 < b ∧ b < 256) ∧ optionsWF p.options ∧
  p.block_number = 0 ∧ p.error_code = 0 ∧ p.data = [] ∧ p.error_message = []

/-- Well-formed DATA fields. -/
def dataFieldsWF (p : TftpPacket) : Prop :=
  p.block_number < 65536 ∧ p.data.length ≤ 512 ∧ (∀ b ∈ p.data, b < 256) ∧
  p.filename = [] ∧ p.mode = TransferMode.octet ∧ p.error_code = 0 ∧
  p.error_message = [] ∧ p.options = []

/-- Well-formed ACK fields. -/
def ackFieldsWF (p : TftpPacket) : Prop :=
  p.block_number < 65536 ∧ p.filename = [] ∧ p.mode = TransferMode.octet ∧
  p.error_code = 0 ∧ p.data = [] ∧ p.error_message = [] ∧ p.options = []

/-- Well-formed ERROR fields (the message may be empty). -/
def errorFieldsWF (p : TftpPacket) : Prop :=
  p.error_code ≤ 7 ∧ p.error_message.length ≤ 255 ∧
  (∀ b ∈ p.error_message, 0 < b ∧ b < 256) ∧ p.block_number = 0 ∧
  p.filename = [] ∧ p.mode = TransferMode.octet ∧ p.data = [] ∧ p.options = []

/-- Well-formed OACK fields (at least one option: a bare 2-byte OACK is
below `kMinPacketSize` and cannot round-trip). -/
def oackFieldsWF (p : TftpPacket) : Prop :=
  p.options ≠ [] ∧ optionsWF p.options ∧ p.block_number = 0 ∧
  p.error_code = 0 ∧ p.filename = [] ∧ p.mode = TransferMode.octet ∧
  p.data = [] ∧ p.error_message = []

/-- A well-formed `TftpPacket` value. -/
def WellFormedPacket (p : TftpPacket) : Prop :=
  ((p.op_code = 1 ∨ p.op_code = 2) ∧ requestFieldsWF p) ∨
  (p.op_code = 3 ∧ dataFieldsWF p) ∨
  (p.op_code = 4 ∧ ackFieldsWF p) ∨
  (p.op_code = 5 ∧ errorFieldsWF p) ∨
  (p.op_code = 6 ∧ oackFieldsWF p)

instance (p : TftpPacket) : Decidable (requestFieldsWF p) := by
  unfold requestFieldsWF
  infer_instance

instance (p : TftpPacket) : Decidable (dataFieldsWF p) := by
  unfold dataFieldsWF
  infer_instance

instance (p : TftpPacket) : Decidable (ackFieldsWF p) := by
  unfold ackFieldsWF
  infer_instance

instance (p : TftpPacket) : Decidable (errorFieldsWF p) := by
  unfold errorFieldsWF
  infer_instance

instance (p : TftpPacket) : Decidable (oackFieldsWF p) := by
  unfold oackFieldsWF
  infer_instance

instance (p : TftpPacket) : Decidable (WellFormedPacket p) := by
  unfold WellFormedPacket
  infer_instance

/-- A concrete symlink-free filesystem oracle for witnesses: every path is
its own absolute and weakly-canonical form (true of the real filesystem
when the root is an absolute, already-normal path and no symlinks are
involved), and `relative t r` strips `r` plus the separator from `t`. -/
def demoFs : FsOracle :=
  { absolute := fun p => Except.ok p
    weaklyCanonical := fun p => Except.ok p
    relative := fun t r => Except.ok (t.drop (r.length + 1)) }

/-- The oversized-but-well-formed request refuting C3 as stated: one-byte
filename, octet mode, and four option pairs each with a 64-byte name and
a 64-byte value — every per-field limit of the claim holds and there are
at most 16 pairs, yet the wire form is 530 bytes. -/
def oversizedRequest : TftpPacket :=
  { defaultPacket with
      op_code := 1
      filename := [97]
      options := [(List.replicate 64 97, List.replicate 64 101),
                  (List.replicate 64 98, List.replicate 64 101),
                  (List.replicate 64 99, List.replicate 64 101),
                  (List.replicate 64 100, List.replicate 64 101)] }

theorem readRaw_encode (s rest : List Nat) (m : Nat) (hz : ∀ b ∈ s, b ≠ 0)
    (hlen : s.length ≤ m) : readRaw m (s ++ 0 :: rest) = (s, 0 :: rest) := by
  induction s generalizing m with
  | nil =>
    cases m with
    | zero => simp [readRaw]
    | succ m => simp [readRaw]
  | cons c s ih =>
    cases m with
    | zero => simp at hlen
    | succ m =>
      have hc : c ≠ 0 := hz c (by simp)
      simp only [List.cons_append, readRaw, if_neg hc, List.append_eq]
      rw [ih m (fun b hb => hz b (List.mem_cons_of_mem c hb)) (by simpa using hlen)]

theorem read_string_validated_encode (s rest : List Nat) (m : Nat)
    (hz : ∀ b ∈ s, b ≠ 0) (hlen : s.length ≤ m) :
    read_string_validated (s ++ 0 :: rest) m = some (s, rest) := by
  have h := readRaw_encode s rest m hz hlen
  cases s with
  | nil =>
    simp only [List.nil_append] at h
    simp [read_string_validated, h]
  | cons c s =>
    simp only [List.cons_append] at h
    simp [read_string_validated, h]

theorem mapInsert_fresh (k v : List Nat) (m : List (List Nat × List Nat))
    (h : ∀ kv ∈ m, kv.1 ≠ k) : mapInsert k v m = m ++ [(k, v)] := by
  induction m with
  | nil => rfl
  | cons kv rest ih =>
    obtain ⟨k₀, v₀⟩ := kv
    have hk₀ : k₀ ≠ k := h (k₀, v₀) (by simp)
    simp only [mapInsert, if_neg hk₀, List.cons_append]
    rw [ih (fun kv hkv => h kv (by simp [hkv]))]

/-- Option pairs with pairwise-distinct names, inserted into an accumulator
containing none of those names, end up appended in wire order. -/
theorem foldInsert_nodup (opts acc : List (List Nat × List Nat))
    (hnd : (opts.map Prod.fst).Nodup)
    (hdisj : ∀ kv ∈ opts, ∀ kv' ∈ acc, kv'.1 ≠ kv.1) :
    foldInsert acc opts = acc ++ opts := by
  induction opts generalizing acc with
  | nil => simp [foldInsert]
  | cons kv t ih =>
    obtain ⟨k, v⟩ := kv
    simp only [List.map_cons, List.nodup_cons] at hnd
    have hstep : mapInsert k v acc = acc ++ [(k, v)] :=
      mapInsert_fresh k v acc (fun kv' hkv' => hdisj (k, v) (by simp) kv' hkv')
    have : foldInsert acc ((k, v) :: t) = foldInsert (mapInsert k v acc) t := rfl
    rw [this, hstep, ih]
    · simp
    · exact hnd.2
    · intro kv hkv kv' hkv'
      rcases List.mem_append.mp hkv' with h' | h'
      · exact hdisj kv (by simp [hkv]) kv' h'
      · have hkv'' : kv' = (k, v) := by simpa using h'
        subst hkv''
        intro hEq
        apply hnd.1
        have hm : kv.1 ∈ t.map Prod.fst := List.mem_map_of_mem Prod.fst hkv
        rw [← hEq] at hm
        simpa using hm

theorem encodeOptions_cons (k v : List Nat) (t : List (List Nat × List Nat)) :
    encodeOptions ((k, v) :: t) = k ++ 0 :: (v ++ 0 :: encodeOptions t) := by
  simp [encodeOptions]

theorem parseOptions_encode (opts : List (List Nat × List Nat)) (budget : Nat)
    (acc : List (List Nat × List Nat))
    (hwf : ∀ kv ∈ opts, kv.1 ≠ [] ∧ kv.1.length ≤ 64 ∧ (∀ b ∈ kv.1, b ≠ 0) ∧
      kv.2 ≠ [] ∧ kv.2.length ≤ 64 ∧ (∀ b ∈ kv.2, b ≠ 0))
    (hcount : opts.length ≤ budget) :
    parseOptions (encodeOptions opts) budget acc = some (foldInsert acc opts) := by
  induction opts generalizing budget acc with
  | nil =>
    cases budget with
    | zero => simp [encodeOptions, parseOptions, foldInsert]
    | succ budget => simp [encodeOptions, parseOptions, foldInsert]
  | cons kv t ih =>
    obtain ⟨k, v⟩ := kv
    cases budget with
    | zero => simp at hcount
    | succ budget =>
      obtain ⟨hk, hklen, hkz, hv, hvlen, hvz⟩ := hwf (k, v) (by simp)
      rw [encodeOptions_cons]
      have hne : k ++ 0 :: (v ++ 0 :: encodeOptions t) ≠ [] := by simp
      have hr₁ : v ++ 0 :: encodeOptions t ≠ [] := by simp
      simp only [parseOptions, if_neg hne,
        read_string_validated_encode k (v ++ 0 :: encodeOptions t) 64 hkz hklen,
        if_neg hk, if_neg hr₁,
        read_string_validated_encode v (encodeOptions t) 64 hvz hvlen,
        if_neg hv]
      rw [ih budget (mapInsert k v acc)
        (fun kv hkv => hwf kv (by simp [hkv])) (by simpa using hcount)]
      rfl

theorem mapLookup_mapInsert_self (k v : List Nat)
    (m : List (List Nat × List Nat)) : mapLookup k (mapInsert k v m) = some v := by
  induction m with
  | nil => simp [mapInsert, mapLookup]
  | cons kv rest ih =>
    obtain ⟨k₀, v₀⟩ := kv
    by_cases h : k₀ = k
    · subst h
      simp [mapInsert, mapLookup]
    · simp [mapInsert, mapLookup, h, ih]

theorem mapLookup_mapInsert_ne (k k' v : List Nat)
    (m : List (List Nat × List Nat)) (h : k' ≠ k) :
    mapLookup k (mapInsert k' v m) = mapLookup k m := by
  induction m with
  | nil => simp [mapInsert, mapLookup, h]
  | cons kv rest ih =>
    obtain ⟨k₀, v₀⟩ := kv
    by_cases h₀ : k₀ = k'
    · subst h₀
      simp [mapInsert, mapLookup, h]
    · by_cases h₁ : k₀ = k
      · subst h₁
        simp [mapInsert, mapLookup, h₀]
      · simp [mapInsert, mapLookup, h₀, h₁, ih]

/-- Looking up a key after the option loop yields the value of its *last*
occurrence on the wire, falling back to the initial accumulator. -/
theorem mapLookup_foldInsert (k : List Nat)
    (init opts : List (List Nat × List Nat)) :
    mapLookup k (foldInsert init opts) =
      match lastValueOf k opts with
      | some v => some v
      | none => mapLookup k init := by
  induction opts generalizing init with
  | nil => simp [foldInsert, lastValueOf]
  | cons kv t ih =>
    obtain ⟨k₀, v⟩ := kv
    have hstep : foldInsert init ((k₀, v) :: t) =
        foldInsert (mapInsert k₀ v init) t := rfl
    rw [hstep, ih]
    cases ht : lastValueOf k t with
    | some v' => simp [lastValueOf, ht]
    | none =>
      by_cases hk : k₀ = k
      · subst hk
        simp [lastValueOf, ht, mapLookup_mapInsert_self]
      · simp [lastValueOf, ht, hk, mapLookup_mapInsert_ne k k₀ v init hk]

/-! ## Round-trip lemmas, one per opcode case -/

theorem optionsWF_parse (opts : List (List Nat × List Nat))
    (hwf : optionsWF opts) :
    parseOptions (encodeOptions opts) 16 [] = some opts := by
  obtain ⟨hcount, hpairs, hnd⟩ := hwf
  rw [parseOptions_encode opts 16 [] ?hz hcount]
  · rw [foldInsert_nodup opts [] hnd (by simp)]
    simp
  · intro kv hkv
    obtain ⟨h₁, h₂, h₃, h₄, h₅, h₆⟩ := hpairs kv hkv
    exact ⟨h₁, h₂, fun b hb => Nat.pos_iff_ne_zero.mp (h₃ b hb).1, h₄, h₅,
      fun b hb => Nat.pos_iff_ne_zero.mp (h₆ b hb).1⟩

theorem mode_roundtrip (m : TransferMode) :
    string_to_mode (mode_to_string m) = some m := by
  cases m <;> rfl

theorem mode_to_string_ne_nil (m : TransferMode) : mode_to_string m ≠ [] := by
  cases m <;> decide

theorem mode_to_string_len (m : TransferMode) :
    (mode_to_string m).length ≤ 255 := by
  cases m <;> decide

theorem mode_to_string_nz (m : TransferMode) :
    ∀ b ∈ mode_to_string m, b ≠ 0 := by
  cases m <;> decide

theorem deserializeRequest_encode_fold (p₁ : TftpPacket) (fn : List Nat)
    (m : TransferMode) (opts : List (List Nat × List Nat))
    (hfn : fn ≠ []) (hfnlen : fn.length ≤ 255) (hfnz : ∀ b ∈ fn, b ≠ 0)
    (hpairs : ∀ kv ∈ opts, kv.1 ≠ [] ∧ kv.1.length ≤ 64 ∧ (∀ b ∈ kv.1, b ≠ 0) ∧
      kv.2 ≠ [] ∧ kv.2.length ≤ 64 ∧ (∀ b ∈ kv.2, b ≠ 0))
    (hcount : opts.length ≤ 16) :
    deserializeRequest p₁
        (fn ++ 0 :: (mode_to_string m ++ 0 :: encodeOptions opts)) =
      (true,
        { p₁ with
            filename := fn, mode := m, options := foldInsert [] opts }) := by
  have h₁ := read_string_validated_encode fn
    (mode_to_string m ++ 0 :: encodeOptions opts) 255 hfnz hfnlen
  have h₂ := read_string_validated_encode (mode_to_string m)
    (encodeOptions opts) 255 (mode_to_string_nz m) (mode_to_string_len m)
  simp only [deserializeRequest, h₁, h₂, if_neg hfn,
    if_neg (mode_to_string_ne_nil m), mode_roundtrip m,
    parseOptions_encode opts 16 [] hpairs hcount]
  simp

theorem deserializeRequest_encode (p₁ : TftpPacket) (fn : List Nat)
    (m : TransferMode) (opts : List (List Nat × List Nat))
    (hfn : fn ≠ []) (hfnlen : fn.length ≤ 255) (hfnz : ∀ b ∈ fn, b ≠ 0)
    (hopts : optionsWF opts) :
    deserializeRequest p₁
        (fn ++ 0 :: (mode_to_string m ++ 0 :: encodeOptions opts)) =
      (true, { p₁ with filename := fn, mode := m, options := opts }) := by
  obtain ⟨hcount, hpairs, hnd⟩ := hopts
  rw [deserializeRequest_encode_fold p₁ fn m opts hfn hfnlen hfnz ?hp hcount]
  · rw [foldInsert_nodup opts [] hnd (by simp)]
    simp
  · intro kv hkv
    obtain ⟨h₁, h₂, h₃, h₄, h₅, h₆⟩ := hpairs kv hkv
    exact ⟨h₁, h₂, fun b hb => Nat.pos_iff_ne_zero.mp (h₃ b hb).1, h₄, h₅,
      fun b hb => Nat.pos_iff_ne_zero.mp (h₆ b hb).1⟩

theorem Deserialize_request_bytes_fold (op : Nat) (hop : op = 1 ∨ op = 2)
    (fn : List Nat) (m : TransferMode) (opts : List (List Nat × List Nat))
    (hfn : fn ≠ []) (hfnlen : fn.length ≤ 255) (hfnz : ∀ b ∈ fn, b ≠ 0)
    (hpairs : ∀ kv ∈ opts, kv.1 ≠ [] ∧ kv.1.length ≤ 64 ∧ (∀ b ∈ kv.1, b ≠ 0) ∧
      kv.2 ≠ [] ∧ kv.2.length ≤ 64 ∧ (∀ b ∈ kv.2, b ≠ 0))
    (hcount : opts.length ≤ 16)
    (hlen : (0 :: op :: (fn ++ 0 ::
      (mode_to_string m ++ 0 :: encodeOptions opts))).length ≤ 516) :
    Deserialize (0 :: op :: (fn ++ 0 ::
        (mode_to_string m ++ 0 :: encodeOptions opts))) =
      (true,
        { defaultPacket with
            op_code := op, filename := fn, mode := m,
            options := foldInsert [] opts }) := by
  have hfn1 : 1 ≤ fn.length := List.length_pos.mpr hfn
  rcases hop with h | h <;> subst h <;>
  · simp only [List.length_cons, List.length_append] at hlen
    rw [Deserialize]
    rw [if_neg (by simp),
      if_neg (by simp only [List.length_cons, List.length_append]; push_neg; omega)]
    norm_num
    rw [deserializeRequest_encode_fold _ fn m opts hfn hfnlen hfnz hpairs hcount]

theorem Deserialize_request_bytes (op : Nat) (hop : op = 1 ∨ op = 2)
    (fn : List Nat) (m : TransferMode) (opts : List (List Nat × List Nat))
    (hfn : fn ≠ []) (hfnlen : fn.length ≤ 255) (hfnz : ∀ b ∈ fn, b ≠ 0)
    (hopts : optionsWF opts)
    (hlen : (0 :: op :: (fn ++ 0 ::
      (mode_to_string m ++ 0 :: encodeOptions opts))).length ≤ 516) :
    Deserialize (0 :: op :: (fn ++ 0 ::
        (mode_to_string m ++ 0 :: encodeOptions opts))) =
      (true,
        { defaultPacket with
            op_code := op, filename := fn, mode := m, options := opts }) := by
  have hfn1 : 1 ≤ fn.length := List.length_pos.mpr hfn
  rcases hop with h | h <;> subst h <;>
  · simp only [List.length_cons, List.length_append] at hlen
    rw [Deserialize]
    rw [if_neg (by simp),
      if_neg (by simp only [List.length_cons, List.length_append]; push_neg; omega)]
    norm_num
    rw [deserializeRequest_encode _ fn m opts hfn hfnlen hfnz hopts]

theorem roundtrip_request (p : TftpPacket) (hop : p.op_code = 1 ∨ p.op_code = 2)
    (hwf : requestFieldsWF p) (hlen : (Serialize p).length ≤ 516) :
    Deserialize (Serialize p) = (true, p) := by
  obtain ⟨hfn, hfnlen, hfnb, hopts, hbn, hec, hdata, hmsg⟩ := hwf
  have hfnz : ∀ b ∈ p.filename, b ≠ 0 :=
    fun b hb => Nat.pos_iff_ne_zero.mp (hfnb b hb).1
  have e : Serialize p = 0 :: p.op_code :: (p.filename ++ 0 ::
      (mode_to_string p.mode ++ 0 :: encodeOptions p.options)) := by
    rcases hop with h | h <;> simp [Serialize, h, u16be]
  rw [e] at hlen ⊢
  rw [Deserialize_request_bytes p.op_code hop p.filename p.mode p.options
    hfn hfnlen hfnz hopts hlen]
  have hp :
      ({ defaultPacket with
          op_code := p.op_code, filename := p.filename, mode := p.mode,
          options := p.options } : TftpPacket) = p := by
    cases p
    simp_all [defaultPacket]
  rw [hp]

theorem roundtrip_data (p : TftpPacket) (hop : p.op_code = 3)
    (hwf : dataFieldsWF p) : Deserialize (Serialize p) = (true, p) := by
  obtain ⟨hbn, hdlen, hdb, hfn, hm, hec, hmsg, hopt⟩ := hwf
  have e : Serialize p =
      0 :: 3 :: (p.block_number / 256 :: p.block_number % 256 :: p.data) := by
    simp [Serialize, hop, u16be, Nat.mod_eq_of_lt hbn]
  rw [e, Deserialize]
  rw [if_neg (by simp),
    if_neg (by simp only [List.length_cons]; push_neg; omega)]
  norm_num
  rw [if_neg (by omega)]
  have hblock : p.block_number / 256 * 256 + p.block_number % 256 =
      p.block_number := by omega
  cases p
  simp_all [defaultPacket]

theorem roundtrip_ack (p : TftpPacket) (hop : p.op_code = 4)
    (hwf : ackFieldsWF p) : Deserialize (Serialize p) = (true, p) := by
  obtain ⟨hbn, hfn, hm, hec, hdata, hmsg, hopt⟩ := hwf
  have e : Serialize p =
      0 :: 4 :: (p.block_number / 256 :: p.block_number % 256 :: []) := by
    simp [Serialize, hop, u16be, Nat.mod_eq_of_lt hbn]
  rw [e, Deserialize]
  rw [if_neg (by simp), if_neg (by simp)]
  norm_num
  have hblock : p.block_number / 256 * 256 + p.block_number % 256 =
      p.block_number := by omega
  cases p
  simp_all [defaultPacket]

theorem roundtrip_error (p : TftpPacket) (hop : p.op_code = 5)
    (hwf : errorFieldsWF p) : Deserialize (Serialize p) = (true, p) := by
  obtain ⟨hec, hmlen, hmb, hbn, hfn, hm, hdata, hopt⟩ := hwf
  have hmz : ∀ b ∈ p.error_message, b ≠ 0 :=
    fun b hb => Nat.pos_iff_ne_zero.mp (hmb b hb).1
  have e : Serialize p =
      0 :: 5 :: (0 :: p.error_code :: (p.error_message ++ 0 :: [])) := by
    simp [Serialize, hop, u16be, Nat.mod_eq_of_lt (show p.error_code < 65536 by omega),
      Nat.div_eq_of_lt (show p.error_code < 256 by omega),
      Nat.mod_eq_of_lt (show p.error_code < 256 by omega)]
  rw [e, Deserialize]
  rw [if_neg (by simp),
    if_neg (by
      simp only [List.length_cons, List.length_append, List.length_nil]
      push_neg
      omega)]
  norm_num
  rw [if_neg (by omega), if_neg (by omega),
    read_string_validated_encode p.error_message [] 255 hmz hmlen]
  cases p
  simp_all [defaultPacket]

theorem encodeOptions_length_ge (opts : List (List Nat × List Nat))
    (hne : opts ≠ []) (hwf : ∀ kv ∈ opts, optPairWF kv) :
    4 ≤ (encodeOptions opts).length := by
  cases opts with
  | nil => exact absurd rfl hne
  | cons kv t =>
    obtain ⟨k, v⟩ := kv
    obtain ⟨hk, -, -, hv, -, -⟩ := hwf (k, v) (by simp)
    have hk1 : 1 ≤ k.length := List.length_pos.mpr hk
    have hv1 : 1 ≤ v.length := List.length_pos.mpr hv
    rw [encodeOptions_cons]
    simp only [List.length_append, List.length_cons]
    omega

theorem roundtrip_oack (p : TftpPacket) (hop : p.op_code = 6)
    (hwf : oackFieldsWF p) (hlen : (Serialize p).length ≤ 516) :
    Deserialize (Serialize p) = (true, p) := by
  obtain ⟨hne, hopts, hbn, hec, hfn, hm, hdata, hmsg⟩ := hwf
  have hge := encodeOptions_length_ge p.options hne hopts.2.1
  have e : Serialize p = 0 :: 6 :: encodeOptions p.options := by
    simp [Serialize, hop, u16be]
  rw [e] at hlen ⊢
  simp only [List.length_cons] at hlen
  rw [Deserialize]
  rw [if_neg (by simp),
    if_neg (by simp only [List.length_cons]; push_neg; omega)]
  norm_num
  rw [optionsWF_parse p.options hopts]
  cases p
  simp_all [defaultPacket]

/-- Claim C3 (amended): for every well-formed packet value (per-field
limits, at most 16 option pairs, distinct option names, fields unused by
the opcode at their defaults) *whose serialized form is at most
MAX_PACKET_SIZE = 516 bytes*, `Deserialize (Serialize p)` succeeds and
returns a packet equal to `p` in every field. -/
theorem roundtrip_wellformed (p : TftpPacket) (hwf : WellFormedPacket p)
    (hlen : (Serialize p).length ≤ 516) :
    Deserialize (Serialize p) = (true, p) := by
  rcases hwf with ⟨hop, hwf⟩ | ⟨hop, hwf⟩ | ⟨hop, hwf⟩ | ⟨hop, hwf⟩ | ⟨hop, hwf⟩
  · exact roundtrip_request p hop hwf hlen
  · exact roundtrip_data p hop hwf
  · exact roundtrip_ack p hop hwf
  · exact roundtrip_error p hop hwf
  · exact roundtrip_oack p hop hwf hlen

/-! ## Path-safety lemmas -/

theorem isPrefixOf_append_self (pat post : List Nat) :
    pat.isPrefixOf (pat ++ post) = true := by
  induction pat with
  | nil => simp [List.isPrefixOf]
  | cons b t ih => simp [List.isPrefixOf, ih]

theorem containsSub_of_parts (pre pat post : List Nat) :
    containsSub (pre ++ pat ++ post) pat = true := by
  induction pre with
  | nil =>
    have hp : pat.isPrefixOf (pat ++ post) = true := isPrefixOf_append_self pat post
    rw [containsSub.eq_def]
    simp [hp]
  | cons b pre ih =>
    rw [containsSub.eq_def]
    split
    · rfl
    · simpa using ih

theorem splitOnSep_ne_nil (sep : Nat) (l : List Nat) : splitOnSep sep l ≠ [] := by
  cases l with
  | nil => simp [splitOnSep]
  | cons b rest =>
    rw [splitOnSep]
    split
    · simp
    · split <;> simp

/-- Every component produced by `splitOnSep` occurs contiguously in the
input, and the first component is an initial segment of the input. -/
theorem splitOnSep_parts (sep : Nat) (l : List Nat) :
    (∀ c ∈ splitOnSep sep l, ∃ pre post, l = pre ++ c ++ post) ∧
    (∀ c cs, splitOnSep sep l = c :: cs → ∃ post, l = c ++ post) := by
  induction l with
  | nil =>
    constructor
    · intro c hc
      simp [splitOnSep] at hc
      exact ⟨[], [], by simp [hc]⟩
    · intro c cs h
      simp [splitOnSep] at h
      exact ⟨[], by simp [h.1]⟩
  | cons b rest ih =>
    obtain ⟨ih₁, ih₂⟩ := ih
    by_cases hb : b = sep
    · constructor
      · intro c hc
        rw [splitOnSep, if_pos hb] at hc
        rcases List.mem_cons.mp hc with h | h
        · exact ⟨[], b :: rest, by simp [h]⟩
        · obtain ⟨pre, post, hpp⟩ := ih₁ c h
          exact ⟨b :: pre, post, by simp [hpp]⟩
      · intro c cs h
        rw [splitOnSep, if_pos hb] at h
        injection h with h₁ h₂
        exact ⟨b :: rest, by simp [← h₁]⟩
    · rcases hsp : splitOnSep sep rest with - | ⟨c₀, cs₀⟩
      · exact absurd hsp (splitOnSep_ne_nil sep rest)
      · constructor
        · intro c hc
          rw [splitOnSep, if_neg hb, hsp] at hc
          rcases List.mem_cons.mp hc with h | h
          · obtain ⟨post, hpost⟩ := ih₂ c₀ cs₀ hsp
            exact ⟨[], post, by simp [h, hpost]⟩
          · obtain ⟨pre, post, hpp⟩ := ih₁ c (by rw [hsp]; exact List.mem_cons_of_mem c₀ h)
            exact ⟨b :: pre, post, by simp [hpp]⟩
        · intro c cs h
          rw [splitOnSep, if_neg hb, hsp] at h
          injection h with h₁ h₂
          obtain ⟨post, hpost⟩ := ih₂ c₀ cs₀ hsp
          exact ⟨post, by simp [← h₁, hpost]⟩

/-- If `..` occurs nowhere as a substring (which is what the C++ checks
with `relative_str.find("..")`), then no path component equals `..`. -/
theorem no_dotdot_component_of_no_sub (l : List Nat)
    (h : containsSub l (strBytes "..") = false) :
    ∀ c ∈ splitOnSep 47 l, c ≠ strBytes ".." := by
  intro c hc hEq
  obtain ⟨pre, post, hpp⟩ := (splitOnSep_parts 47 l).1 c hc
  subst hEq
  rw [hpp, containsSub_of_parts] at h
  exact Bool.true_eq_false.mp h

/-- Claim C1: for every filename string and root string, if `IsPathSecure`
returns true then the canonicalization pipeline ran to completion and the
weakly-canonicalized target (of the absolute root joined with the
filename) starts with the weakly-canonicalized root followed by a
trailing separator, and the relative remainder of the target under the
root contains no `..` component; and whenever any canonicalization step
raises (`absolute`, either `weakly_canonical`, or `relative`),
`IsPathSecure` returns false (fail-closed). -/
theorem isPathSecure_containment_and_fail_closed
    (fs : FsOracle) (path rootDir : List Nat) :
    (IsPathSecure fs path rootDir = true →
      ∃ rootPath canonicalRoot canonicalTarget rel,
        fs.absolute rootDir = Except.ok rootPath ∧
        fs.weaklyCanonical rootPath = Except.ok canonicalRoot ∧
        fs.weaklyCanonical (pathAppend rootPath path) = Except.ok canonicalTarget ∧
        (∃ t, canonicalTarget = withTrailingSep canonicalRoot ++ t) ∧
        fs.relative canonicalTarget canonicalRoot = Except.ok rel ∧
        ∀ c ∈ splitOnSep 47 rel, c ≠ strBytes "..") ∧
    ((fs.absolute rootDir = Except.error () ∨
      (∃ rootPath, fs.absolute rootDir = Except.ok rootPath ∧
        (fs.weaklyCanonical rootPath = Except.error () ∨
         fs.weaklyCanonical (pathAppend rootPath path) = Except.error () ∨
         (∃ canonicalRoot canonicalTarget,
           fs.weaklyCanonical rootPath = Except.ok canonicalRoot ∧
           fs.weaklyCanonical (pathAppend rootPath path) = Except.ok canonicalTarget ∧
           fs.relative canonicalTarget canonicalRoot = Except.error ())))) →
      IsPathSecure fs path rootDir = false) := by
  constructor
  · intro h
    cases habs : fs.absolute rootDir with
    | error e => simp [IsPathSecure, habs] at h
    | ok rootPath =>
    cases hcr : fs.weaklyCanonical rootPath with
    | error e => simp [IsPathSecure, habs, hcr] at h
    | ok canonicalRoot =>
    cases hct : fs.weaklyCanonical (pathAppend rootPath path) with
    | error e => simp [IsPathSecure, habs, hcr, hct] at h
    | ok canonicalTarget =>
    cases hrel : fs.relative canonicalTarget canonicalRoot with
    | error e => simp [IsPathSecure, habs, hcr, hct, hrel] at h
    | ok rel =>
    simp only [IsPathSecure, habs, hcr, hct, hrel] at h
    split at h
    · simp at h
    split at h
    · simp at h
    split at h
    · simp at h
    split at h
    · simp at h
    split at h
    · simp at h
    next hpre =>
    split at h
    · simp at h
    next hsub =>
    push_neg at hpre
    obtain ⟨t, ht⟩ := List.prefix_iff_eq_take.mpr hpre.2.symm
    exact ⟨rootPath, canonicalRoot, canonicalTarget, rel, rfl, hcr, hct,
      ⟨t, ht.symm⟩, hrel,
      no_dotdot_component_of_no_sub rel (by simpa using hsub)⟩
  · intro hraise
    rcases hraise with habs | ⟨rootPath, habs, hrest⟩
    · simp only [IsPathSecure, habs]
      repeat' split
      all_goals rfl
    · rcases hrest with hcr | hct | ⟨canonicalRoot, canonicalTarget, hcr, hct, hrel⟩
      · simp only [IsPathSecure, habs, hcr]
        repeat' split
        all_goals rfl
      · cases hcr : fs.weaklyCanonical rootPath with
        | error e =>
          simp only [IsPathSecure, habs, hcr]
          repeat' split
          all_goals rfl
        | ok canonicalRoot =>
          simp only [IsPathSecure, habs, hcr, hct]
          repeat' split
          all_goals rfl
      · simp only [IsPathSecure, habs, hcr, hct, hrel]
        repeat' split
        all_goals rfl

/-- Witness for C1: on a concrete symlink-free oracle, root `/r` and
filename `f`, the path check passes and the containment consequence is
obtained from the claim theorem. -/
theorem isPathSecure_containment_witness :
    ∃ rootPath canonicalRoot canonicalTarget rel,
      demoFs.absolute (strBytes "/r") = Except.ok rootPath ∧
      demoFs.weaklyCanonical rootPath = Except.ok canonicalRoot ∧
      demoFs.weaklyCanonical (pathAppend rootPath (strBytes "f")) =
        Except.ok canonicalTarget ∧
      (∃ t, canonicalTarget = withTrailingSep canonicalRoot ++ t) ∧
      demoFs.relative canonicalTarget canonicalRoot = Except.ok rel ∧
      ∀ c ∈ splitOnSep 47 rel, c ≠ strBytes ".." :=
  (isPathSecure_containment_and_fail_closed demoFs (strBytes "f")
    (strBytes "/r")).1 (by decide)

set_option maxRecDepth 8192 in
/-- Counterexample for C2: `IsPathSecure` performs no length check and no
control-character check.  On a symlink-free filesystem it accepts a
256-byte filename (the claim says every name longer than 255 bytes is
rejected) and a filename containing the control byte `0x01` (the claim
says control characters 0x01..=0x1F are rejected). -/
theorem isPathSecure_accepts_long_and_control_names :
    IsPathSecure demoFs (List.replicate 256 97) (strBytes "/r") = true ∧
    255 < (List.replicate 256 97).length ∧
    IsPathSecure demoFs [97, 1, 98] (strBytes "/r") = true ∧
    (1 : Nat) ∈ ([97, 1, 98] : List Nat) := by
  refine ⟨by decide, by decide, by decide, by decide⟩

/-- Claim C2 (amended): `IsPathSecure(requested, root)` returns true only
if `requested` is non-empty and contains no `0x00` byte.  (The 255-byte
bound and the control-character rejection claimed by the spec are not
performed by this function; they live in `validation::ValidateFilename`,
which is not on this code path.) -/
theorem isPathSecure_nonempty_no_nul (fs : FsOracle) (path rootDir : List Nat)
    (h : IsPathSecure fs path rootDir = true) :
    path ≠ [] ∧ (0 : Nat) ∉ path := by
  rw [IsPathSecure] at h
  split at h
  · simp at h
  next h₁ =>
  split at h
  · simp at h
  next h₂ =>
  push_neg at h₁
  refine ⟨h₁.1, ?_⟩
  simpa using h₂

/-- Witness for the amended C2 at a concrete accepted input. -/
theorem isPathSecure_nonempty_no_nul_witness :
    strBytes "f" ≠ [] ∧ (0 : Nat) ∉ strBytes "f" :=
  isPathSecure_nonempty_no_nul demoFs (strBytes "f") (strBytes "/r") (by decide)

/-- Witness for the amended C3 at a concrete DATA packet. -/
theorem roundtrip_wellformed_witness :
    Deserialize (Serialize { defaultPacket with
      op_code := 3, block_number := 7, data := [1, 2, 3] }) =
      (true, { defaultPacket with
        op_code := 3, block_number := 7, data := [1, 2, 3] }) :=
  roundtrip_wellformed _ (by decide) (by decide)

set_option maxRecDepth 16384 in
/-- Counterexample for C3 as stated: `oversizedRequest` satisfies every
condition the claim lists (and the full well-formedness predicate), but
its serialization exceeds `kMaxPacketSize = 516`, so `Deserialize`
rejects it and the round-trip fails. -/
theorem roundtrip_fails_oversized_request :
    WellFormedPacket oversizedRequest ∧
    516 < (Serialize oversizedRequest).length ∧
    (Deserialize (Serialize oversizedRequest)).1 = false := by
  refine ⟨by decide, by decide, by decide⟩

/-- Claim C4 (code bug): on a decode failure the packet is supposed to be
left in its freshly-constructed default state, but `Deserialize` assigns
the wire opcode to the `op_code_` member *before* validating it, so any
failure after that point leaks the wire opcode.  Concretely: the 4-byte
WRQ `[0, 2, 0, 0]` (opcode 2, empty filename) is rejected, yet the packet
reports opcode `WriteRequest` (2) instead of the default `ReadRequest`
(1); and the invalid-opcode packet `[0, 7, 0, 0]` is rejected with the
out-of-range opcode 7 left in the object. -/
theorem deserialize_failure_leaks_opcode :
    (Deserialize [0, 2, 0, 0]).1 = false ∧
    (Deserialize [0, 2, 0, 0]).2 = { defaultPacket with op_code := 2 } ∧
    (Deserialize [0, 2, 0, 0]).2 ≠ defaultPacket ∧
    (Deserialize [0, 7, 0, 0]).1 = false ∧
    (Deserialize [0, 7, 0, 0]).2.op_code = 7 := by
  refine ⟨by decide, by decide, by decide, by decide, by decide⟩

/-- `match o with some v => some v | none => none` is `o`. -/
theorem lastValueOf_collapse (k : List Nat) (opts : List (List Nat × List Nat)) :
    (match lastValueOf k opts with
      | some v => some v
      | none => none) = lastValueOf k opts := by
  cases lastValueOf k opts <;> rfl

/-- Claim C10: if the option region of an RRQ/WRQ packet repeats an option
name (within the 16-pair limit and per-field limits), `Deserialize` still
succeeds, and the resulting options map binds that name to the value of
its *last* occurrence on the wire; earlier values are silently discarded
(`temp_options[option_name] = option_value` overwrites). -/
theorem duplicate_option_names_last_wins (op : Nat) (hop : op = 1 ∨ op = 2)
    (fn : List Nat) (m : TransferMode) (opts : List (List Nat × List Nat))
    (name : List Nat)
    (hfn : fn ≠ []) (hfnlen : fn.length ≤ 255) (hfnz : ∀ b ∈ fn, b ≠ 0)
    (hpairs : ∀ kv ∈ opts, kv.1 ≠ [] ∧ kv.1.length ≤ 64 ∧ (∀ b ∈ kv.1, b ≠ 0) ∧
      kv.2 ≠ [] ∧ kv.2.length ≤ 64 ∧ (∀ b ∈ kv.2, b ≠ 0))
    (hcount : opts.length ≤ 16)
    (_hdup : 2 ≤ (opts.filter (fun kv => kv.1 == name)).length)
    (hlen : (0 :: op :: (fn ++ 0 ::
      (mode_to_string m ++ 0 :: encodeOptions opts))).length ≤ 516) :
    (Deserialize (0 :: op :: (fn ++ 0 ::
        (mode_to_string m ++ 0 :: encodeOptions opts)))).1 = true ∧
    mapLookup name (Deserialize (0 :: op :: (fn ++ 0 ::
        (mode_to_string m ++ 0 :: encodeOptions opts)))).2.options =
      lastValueOf name opts := by
  rw [Deserialize_request_bytes_fold op hop fn m opts hfn hfnlen hfnz hpairs
    hcount hlen]
  refine ⟨rfl, ?_⟩
  show mapLookup name (foldInsert [] opts) = lastValueOf name opts
  rw [mapLookup_foldInsert name [] opts]
  exact lastValueOf_collapse name opts

/-- Witness for C10: a request with `tsize` bound twice decodes to a map
holding the second value. -/
theorem duplicate_option_names_last_wins_witness :
    (Deserialize (0 :: 1 :: ([102] ++ 0 ::
        (mode_to_string TransferMode.octet ++ 0 ::
          encodeOptions [(tsizeName, [49]), (tsizeName, [50])])))).1 = true ∧
    mapLookup tsizeName (Deserialize (0 :: 1 :: ([102] ++ 0 ::
        (mode_to_string TransferMode.octet ++ 0 ::
          encodeOptions [(tsizeName, [49]), (tsizeName, [50])])))).2.options =
      lastValueOf tsizeName [(tsizeName, [49]), (tsizeName, [50])] :=
  duplicate_option_names_last_wins 1 (Or.inl rfl) [102] TransferMode.octet
    [(tsizeName, [49]), (tsizeName, [50])] tsizeName (by decide) (by decide)
    (by decide) (by decide) (by decide) (by decide) (by decide)

/-! ## Session-engine lemmas and claims -/

/-- Every error packet the WRQ loop ever sends carries code 4
(IllegalOperation) or 3 (DiskFull) — never 5 (UnknownTransferId). -/
theorem wrqLoop_no_unknown_tid_error (client : TID) (maxSize : Nat)
    (tsize : Option Nat) (incoming : List RecvResult) :
    ∀ expected fileData sent,
      (∀ x ∈ sent, ¬(x.2.op_code = 5 ∧ x.2.error_code = 5)) →
      ∀ x ∈ (wrqLoop client maxSize tsize incoming expected fileData sent).sent,
        ¬(x.2.op_code = 5 ∧ x.2.error_code = 5) := by
  induction incoming with
  | nil => intro expected fileData sent hsent x hx; exact hsent x hx
  | cons ev rest ih =>
    intro expected fileData sent hsent x hx
    match ev with
    | none => exact hsent x hx
    | some (src, pkt) =>
      rw [wrqLoop] at hx
      split at hx
      · rcases List.mem_append.mp hx with h | h
        · exact hsent x h
        · have : x = (client, errorPacket 4 msgIllegalOperation) := by simpa using h
          subst this
          simp [errorPacket, defaultPacket]
      split at hx
      · exact hsent x hx
      split at hx
      · rcases List.mem_append.mp hx with h | h
        · rcases List.mem_append.mp h with h' | h'
          · exact hsent x h'
          · have : x = (src, ackPacket expected) := by simpa using h'
            subst this
            simp [ackPacket, defaultPacket]
        · have : x = (client, errorPacket 3 msgFileSizeTooLarge) := by simpa using h
          subst this
          simp [errorPacket, defaultPacket]
      split at hx
      · rcases List.mem_append.mp hx with h | h
        · rcases List.mem_append.mp h with h' | h'
          · exact hsent x h'
          · have : x = (src, ackPacket expected) := by simpa using h'
            subst this
            simp [ackPacket, defaultPacket]
        · have : x = (client, errorPacket 3 msgFileSizeExceedsTsize) := by simpa using h
          subst this
          simp [errorPacket, defaultPacket]
      split at hx
      · rcases List.mem_append.mp hx with h | h
        · exact hsent x h
        · have : x = (src, ackPacket expected) := by simpa using h
          subst this
          simp [ackPacket, defaultPacket]
      · refine ih _ _ _ ?_ x hx
        intro y hy
        rcases List.mem_append.mp hy with h | h
        · exact hsent y h
        · have : y = (src, ackPacket expected) := by simpa using h
          subst this
          simp [ackPacket, defaultPacket]

/-- Every packet the RRQ loop ever sends is a DATA packet (given the trace
so far contains no UnknownTransferId error, it never appears). -/
theorem rrqLoop_no_unknown_tid_error (client : TID) (fileData : List Nat)
    (incoming : List RecvResult) :
    ∀ blockNumber offset sent,
      (∀ x ∈ sent, ¬(x.2.op_code = 5 ∧ x.2.error_code = 5)) →
      ∀ x ∈ (rrqLoop client fileData incoming blockNumber offset sent).sent,
        ¬(x.2.op_code = 5 ∧ x.2.error_code = 5) := by
  induction incoming with
  | nil =>
    intro blockNumber offset sent hsent x hx
    rw [rrqLoop] at hx
    rcases List.mem_append.mp hx with h | h
    · exact hsent x h
    · have : x = (client, dataPacket blockNumber
          ((fileData.drop offset).take (min (fileData.length - offset) 512))) := by
        simpa using h
      subst this
      simp [dataPacket, defaultPacket]
  | cons ev rest ih =>
    intro blockNumber offset sent hsent x hx
    have hsent₂ : ∀ x ∈ sent ++ [(client, dataPacket blockNumber
        ((fileData.drop offset).take (min (fileData.length - offset) 512)))],
        ¬(x.2.op_code = 5 ∧ x.2.error_code = 5) := by
      intro y hy
      rcases List.mem_append.mp hy with h | h
      · exact hsent y h
      · have : y = (client, dataPacket blockNumber
            ((fileData.drop offset).take (min (fileData.length - offset) 512))) := by
          simpa using h
        subst this
        simp [dataPacket, defaultPacket]
    match ev with
    | none =>
      rw [rrqLoop] at hx
      exact hsent₂ x hx
    | some (src, pkt) =>
      rw [rrqLoop] at hx
      split at hx
      · exact hsent₂ x hx
      split at hx
      · exact hsent₂ x hx
      · exact ih _ _ _ hsent₂ x hx

/-- The WRQ loop only appends to the send trace. -/
theorem wrqLoop_sent_extends (client : TID) (maxSize : Nat)
    (tsize : Option Nat) (incoming : List RecvResult) :
    ∀ expected fileData sent, ∃ extra,
      (wrqLoop client maxSize tsize incoming expected fileData sent).sent =
        sent ++ extra := by
  induction incoming with
  | nil => intro expected fileData sent; exact ⟨[], by simp [wrqLoop]⟩
  | cons ev rest ih =>
    intro expected fileData sent
    match ev with
    | none => exact ⟨[], by simp [wrqLoop]⟩
    | some (src, pkt) =>
      rw [wrqLoop]
      split
      · exact ⟨[(client, errorPacket 4 msgIllegalOperation)], rfl⟩
      split
      · exact ⟨[], by simp⟩
      split
      · exact ⟨[(src, ackPacket expected),
          (client, errorPacket 3 msgFileSizeTooLarge)], by simp⟩
      split
      · exact ⟨[(src, ackPacket expected),
          (client, errorPacket 3 msgFileSizeExceedsTsize)], by simp⟩
      split
      · exact ⟨[(src, ackPacket expected)], rfl⟩
      · obtain ⟨extra, hextra⟩ := ih ((expected + 1) % 65536)
          (fileData ++ pkt.data) (sent ++ [(src, ackPacket expected)])
        exact ⟨(src, ackPacket expected) :: extra, by simpa using hextra⟩

/-- Claim C5 (amended): the session loops perform no TID check at all.  No
`Error(UnknownTransferId)` packet is ever sent by either transfer loop,
and a DATA packet carrying the expected block number is accepted no
matter which TID it came from — its payload is appended and the ACK is
sent back to the *source* of that packet. -/
theorem sessions_no_tid_check :
    (∀ (client : TID) (maxSize : Nat)
        (reqOptions : List (List Nat × List Nat)) (incoming : List RecvResult),
      ∀ x ∈ (wrqRun client maxSize reqOptions incoming).sent,
        ¬(x.2.op_code = 5 ∧ x.2.error_code = 5)) ∧
    (∀ (client : TID) (readResult : Option (List Nat)) (maxSize : Nat)
        (incoming : List RecvResult),
      ∀ x ∈ (rrqRun client readResult maxSize incoming).sent,
        ¬(x.2.op_code = 5 ∧ x.2.error_code = 5)) ∧
    (∀ (client src : TID) (maxSize : Nat) (tsize : Option Nat)
        (pkt : TftpPacket) (rest : List RecvResult) (expected : Nat)
        (fileData : List Nat) (sent : List (TID × TftpPacket)),
      pkt.op_code = 3 → pkt.block_number = expected →
      ∃ restSent,
        (wrqLoop client maxSize tsize (some (src, pkt) :: rest) expected
            fileData sent).sent = sent ++ (src, ackPacket expected) :: restSent) := by
  refine ⟨?_, ?_, ?_⟩
  · intro client maxSize reqOptions incoming x hx
    rw [wrqRun] at hx
    split at hx
    · refine wrqLoop_no_unknown_tid_error client maxSize (wrqTsize reqOptions)
        incoming 1 [] _ ?_ x hx
      intro y hy
      have : y = (client, oackPacket (BuildOackOptions reqOptions)) := by
        simpa using hy
      subst this
      simp [oackPacket, defaultPacket]
    · refine wrqLoop_no_unknown_tid_error client maxSize (wrqTsize reqOptions)
        incoming 1 [] _ ?_ x hx
      intro y hy
      have : y = (client, ackPacket 0) := by simpa using hy
      subst this
      simp [ackPacket, defaultPacket]
  · intro client readResult maxSize incoming x hx
    match readResult with
    | none =>
      rw [rrqRun] at hx
      have : x = (client, errorPacket 1 msgFileNotFound) := by simpa using hx
      subst this
      simp [errorPacket, defaultPacket]
    | some fileData =>
      rw [rrqRun] at hx
      split at hx
      · have : x = (client, errorPacket 3 msgFileSizeTooLarge) := by
          simpa using hx
        subst this
        simp [errorPacket, defaultPacket]
      · exact rrqLoop_no_unknown_tid_error client fileData incoming 1 0 []
          (by simp) x hx
  · intro client src maxSize tsize pkt rest expected fileData sent h3 hb
    rw [wrqLoop, if_neg (by simp [h3]), if_neg (by simp [hb])]
    split
    · exact ⟨[(client, errorPacket 3 msgFileSizeTooLarge)], by simp⟩
    split
    · exact ⟨[(client, errorPacket 3 msgFileSizeExceedsTsize)], by simp⟩
    split
    · exact ⟨[], by simp⟩
    · obtain ⟨extra, hextra⟩ := wrqLoop_sent_extends client maxSize tsize rest
        ((expected + 1) % 65536) (fileData ++ pkt.data)
        (sent ++ [(src, ackPacket expected)])
      exact ⟨extra, by simpa using hextra⟩

/-- Witness for the amended C5: a DATA(1) from the foreign TID 1 during a
session whose client is TID 0 is accepted and ACKed to TID 1. -/
theorem sessions_no_tid_check_witness :
    ∃ restSent,
      (wrqLoop 0 1000 none [some (1, dataPacket 1 [9])] 1 [] []).sent =
        [] ++ (1, ackPacket 1) :: restSent :=
  sessions_no_tid_check.2.2 0 1 1000 none (dataPacket 1 [9]) [] 1 [] [] rfl rfl

/-- Counterexample for C5 as stated: a WRQ session with client TID 0
receives DATA(1) from the stranger TID 1.  The claim demands exactly one
`Error(UnknownTransferId)` to TID 1 and no session-state change; instead
the session appends the stranger's payload, sends `ACK(1)` *to the
stranger*, and commits the stranger's bytes — no error packet at all. -/
theorem wrq_stranger_data_accepted_and_acked :
    wrqRun 0 1000000 [] [some (1, dataPacket 1 [55, 56])] =
      ⟨[(0, ackPacket 0), (1, ackPacket 1)], [55, 56],
        WrqOutcome.committed⟩ ∧
    (∀ x ∈ (wrqRun 0 1000000 [] [some (1, dataPacket 1 [55, 56])]).sent,
      x.2.op_code ≠ 5) ∧
    (wrqRun 0 1000000 [] [some (1, dataPacket 1 [55, 56])]).buf = [55, 56] := by
  refine ⟨by decide, by decide, by decide⟩

/-- Claim C6 (amended): while the RRQ loop waits for `ACK(b)`, *any*
received packet that is not exactly `ACK(b)` — including a duplicate
`ACK(n)`, `n ≠ b`, from the client's own TID — terminates the transfer
immediately (`"Invalid ACK"`); it is not ignored, and nothing further is
sent or received. -/
theorem rrq_mismatched_ack_aborts (client : TID) (fileData : List Nat)
    (src : TID) (pkt : TftpPacket) (rest : List RecvResult)
    (blockNumber offset : Nat) (sent : List (TID × TftpPacket))
    (h : pkt.op_code ≠ 4 ∨ pkt.block_number ≠ blockNumber) :
    rrqLoop client fileData (some (src, pkt) :: rest) blockNumber offset sent =
      ⟨sent ++ [(client, dataPacket blockNumber
          ((fileData.drop offset).take (min (fileData.length - offset) 512)))],
        RrqOutcome.invalidAck⟩ := by
  rw [rrqLoop, if_pos h]

/-- Witness for the amended C6: a duplicate `ACK(5)` received while block
1 is outstanding kills the session. -/
theorem rrq_mismatched_ack_aborts_witness :
    rrqLoop 0 [1, 2] [some (0, ackPacket 5)] 1 0 [] =
      ⟨[] ++ [(0, dataPacket 1 (([1, 2].drop 0).take (min ([1, 2].length - 0) 512)))],
        RrqOutcome.invalidAck⟩ :=
  rrq_mismatched_ack_aborts 0 [1, 2] 0 (ackPacket 5) [] 1 0 []
    (Or.inr (by decide))

set_option maxRecDepth 16384 in
/-- Counterexample for C6 as stated: client TID 0 requests a 600-byte
file and sends ACK(1), ACK(1), ACK(2).  The claim says the duplicate
ACK(1) is ignored, the server keeps waiting, and the transfer proceeds;
instead the server — after sending DATA(2) exactly once — aborts on the
duplicate ACK(1) with `"Invalid ACK"`, never consuming the ACK(2) and
never completing. -/
theorem rrq_duplicate_ack_aborts :
    rrqRun 0 (some (List.replicate 600 7)) 1000000
        [some (0, ackPacket 1), some (0, ackPacket 1), some (0, ackPacket 2)] =
      ⟨[(0, dataPacket 1 (List.replicate 512 7)),
        (0, dataPacket 2 (List.replicate 88 7))],
        RrqOutcome.invalidAck⟩ ∧
    ((rrqRun 0 (some (List.replicate 600 7)) 1000000
        [some (0, ackPacket 1), some (0, ackPacket 1),
         some (0, ackPacket 2)]).sent.filter
      (fun x => x.2.block_number == 2)).length = 1 ∧
    (rrqRun 0 (some (List.replicate 600 7)) 1000000
        [some (0, ackPacket 1), some (0, ackPacket 1),
         some (0, ackPacket 2)]).outcome ≠ RrqOutcome.completed := by
  refine ⟨by decide, by decide, by decide⟩

/-- Claim C7 (amended): the WRQ loop checks the `max_transfer_size` cap
only *after* appending the block and sending its ACK.  Consequently (a)
the accumulated buffer can exceed the cap, but by at most one block
(512 bytes); (b) when the cap is exceeded the loop exits with the ACK of
the offending block followed by `Error(DiskFull, "File size too large")`
as the last two packets sent, and the buffer at that exit really is over
the cap; (c) a committed transfer never exceeds the cap. -/
theorem wrq_cap_checked_after_ack (client : TID) (maxSize : Nat)
    (tsize : Option Nat) (incoming : List RecvResult) :
    ∀ (expected : Nat) (fileData : List Nat) (sent : List (TID × TftpPacket))
      (r : WrqResult),
      r = wrqLoop client maxSize tsize incoming expected fileData sent →
      fileData.length ≤ maxSize →
      (∀ t pkt, some (t, pkt) ∈ incoming → pkt.data.length ≤ 512) →
      r.buf.length ≤ maxSize + 512 ∧
      (r.outcome = WrqOutcome.sizeExceeded →
        maxSize < r.buf.length ∧
        ∃ pre src b, r.sent =
          pre ++ [(src, ackPacket b),
                  (client, errorPacket 3 msgFileSizeTooLarge)]) ∧
      (r.outcome = WrqOutcome.committed → r.buf.length ≤ maxSize) := by
  induction incoming with
  | nil =>
    intro expected fileData sent r hr hsize hpay
    subst hr
    rw [wrqLoop]
    exact ⟨show fileData.length ≤ maxSize + 512 by omega, by simp,
      fun _ => hsize⟩
  | cons ev rest ih =>
    intro expected fileData sent r hr hsize hpay
    subst hr
    match ev with
    | none =>
      rw [wrqLoop]
      exact ⟨show fileData.length ≤ maxSize + 512 by omega, by simp,
        fun _ => hsize⟩
    | some (src, pkt) =>
      have hpkt : pkt.data.length ≤ 512 := hpay src pkt (by simp)
      have hlen₂ : (fileData ++ pkt.data).length ≤ maxSize + 512 := by
        simp only [List.length_append]
        omega
      rw [wrqLoop]
      by_cases h3 : pkt.op_code ≠ 3
      · rw [if_pos h3]
        exact ⟨show fileData.length ≤ maxSize + 512 by omega, by simp,
          fun _ => hsize⟩
      rw [if_neg h3]
      by_cases hbm : pkt.block_number ≠ expected
      · rw [if_pos hbm]
        exact ⟨show fileData.length ≤ maxSize + 512 by omega, by simp,
          fun _ => hsize⟩
      rw [if_neg hbm]
      by_cases hover : maxSize < (fileData ++ pkt.data).length
      · rw [if_pos hover]
        exact ⟨hlen₂,
          fun _ => ⟨hover, sent, src, expected, by simp⟩, by simp⟩
      rw [if_neg hover]
      push_neg at hover
      by_cases hts : tsizeExceeds tsize (fileData ++ pkt.data).length = true
      · rw [if_pos hts]
        exact ⟨show (fileData ++ pkt.data).length ≤ maxSize + 512 by omega,
          by simp, by simp⟩
      rw [if_neg hts]
      by_cases hlast : pkt.data.length < 512
      · rw [if_pos hlast]
        exact ⟨show (fileData ++ pkt.data).length ≤ maxSize + 512 by omega,
          by simp, fun _ => hover⟩
      · rw [if_neg hlast]
        exact ih ((expected + 1) % 65536) (fileData ++ pkt.data)
          (sent ++ [(src, ackPacket expected)]) _ rfl hover
          (fun t pkt' h => hpay t pkt' (by simp [h]))

set_option maxRecDepth 16384 in
/-- Witness for the amended C7: client TID 0, cap 600 bytes, two full
512-byte blocks; the theorem is applied at that concrete run. -/
theorem wrq_cap_checked_after_ack_witness :
    (wrqLoop 0 600 none
        [some (0, dataPacket 1 (List.replicate 512 5)),
         some (0, dataPacket 2 (List.replicate 512 5))] 1 [] []).buf.length ≤
      600 + 512 ∧
    ((wrqLoop 0 600 none
        [some (0, dataPacket 1 (List.replicate 512 5)),
         some (0, dataPacket 2 (List.replicate 512 5))] 1 [] []).outcome =
          WrqOutcome.sizeExceeded →
      600 < (wrqLoop 0 600 none
        [some (0, dataPacket 1 (List.replicate 512 5)),
         some (0, dataPacket 2 (List.replicate 512 5))] 1 [] []).buf.length ∧
      ∃ pre src b, (wrqLoop 0 600 none
        [some (0, dataPacket 1 (List.replicate 512 5)),
         some (0, dataPacket 2 (List.replicate 512 5))] 1 [] []).sent =
          pre ++ [(src, ackPacket b),
                  (0, errorPacket 3 msgFileSizeTooLarge)]) ∧
    ((wrqLoop 0 600 none
        [some (0, dataPacket 1 (List.replicate 512 5)),
         some (0, dataPacket 2 (List.replicate 512 5))] 1 [] []).outcome =
          WrqOutcome.committed →
      (wrqLoop 0 600 none
        [some (0, dataPacket 1 (List.replicate 512 5)),
         some (0, dataPacket 2 (List.replicate 512 5))] 1 [] []).buf.length ≤ 600) :=
  wrq_cap_checked_after_ack 0 600 none
    [some (0, dataPacket 1 (List.replicate 512 5)),
     some (0, dataPacket 2 (List.replicate 512 5))] 1 [] [] _ rfl
    (by decide)
    (fun t pkt h => by
      simp only [List.mem_cons, List.not_mem_nil, or_false,
        Option.some.injEq, Prod.mk.injEq] at h
      rcases h with ⟨-, h⟩ | ⟨-, h⟩ <;> subst h <;> decide)

set_option maxRecDepth 32768 in
/-- Counterexample for C7 as stated: with `max_transfer_size = 600` the
client sends two 512-byte blocks.  The claim says the accumulated count
never exceeds the cap and the next packet after a would-exceed block is
`Error(DiskFull)`; instead the server accepts the block (buffer reaches
1024 > 600) and sends `ACK(2)` *before* the `Error(DiskFull)`. -/
theorem wrq_ack_sent_before_cap_error :
    wrqRun 0 600 []
        [some (0, dataPacket 1 (List.replicate 512 5)),
         some (0, dataPacket 2 (List.replicate 512 5))] =
      ⟨[(0, ackPacket 0), (0, ackPacket 1), (0, ackPacket 2),
        (0, errorPacket 3 msgFileSizeTooLarge)],
        List.replicate 1024 5, WrqOutcome.sizeExceeded⟩ ∧
    600 < (List.replicate (1024 : Nat) 5).length := by
  refine ⟨by decide, by decide⟩

/-- Claim C8 (amended): the OACK built by `HandleWriteRequest` echoes
*every* option pair of the request, in order — `blksize` and `timeout`
values are validated (out-of-range or unparsable values become `"512"`
resp. `"6"`), `tsize` is echoed, and pairs with *unrecognized* names are
echoed verbatim rather than omitted. -/
theorem oack_echoes_every_option (opts : List (List Nat × List Nat)) :
    (BuildOackOptions opts).map Prod.fst = opts.map Prod.fst ∧
    (∀ kv ∈ opts, kv.1 ∉ [blksizeName, timeoutName, tsizeName] →
      (kv.1, kv.2) ∈ BuildOackOptions opts) := by
  constructor
  · simp [BuildOackOptions]
  · intro kv hkv hnot
    simp only [List.mem_cons, List.not_mem_nil, or_false, not_or] at hnot
    obtain ⟨hblk, htim, hts⟩ := hnot
    have hval : negotiateOptionValue kv.1 kv.2 = kv.2 := by
      rw [negotiateOptionValue, if_neg hts, if_neg hblk, if_neg htim]
    have hmem := List.mem_map_of_mem
      (fun kv : List Nat × List Nat => (kv.1, negotiateOptionValue kv.1 kv.2)) hkv
    rw [BuildOackOptions]
    simpa [hval] using hmem

/-- Witness for the amended C8 on a one-option request with an
unrecognized name. -/
theorem oack_echoes_every_option_witness :
    (BuildOackOptions [(strBytes "foo", strBytes "bar")]).map Prod.fst =
      [(strBytes "foo", strBytes "bar")].map Prod.fst ∧
    (strBytes "foo", strBytes "bar") ∈
      BuildOackOptions [(strBytes "foo", strBytes "bar")] :=
  ⟨(oack_echoes_every_option [(strBytes "foo", strBytes "bar")]).1,
    (oack_echoes_every_option [(strBytes "foo", strBytes "bar")]).2
      (strBytes "foo", strBytes "bar") (by simp) (by decide)⟩

/-- Counterexample for C8 as stated: a WRQ carrying the unrecognized
option `foo=bar` is answered with an OACK that *contains* `foo=bar`
(the claim says unrecognized names are omitted). -/
theorem oack_contains_unknown_option :
    (wrqRun 0 1000000 [(strBytes "foo", strBytes "bar")] []).sent =
      [(0, oackPacket [(strBytes "foo", strBytes "bar")])] ∧
    strBytes "foo" ∉ [blksizeName, timeoutName, tsizeName] := by
  refine ⟨by decide, by decide⟩

set_option maxRecDepth 32768 in
/-- Claim C9 (amended, part confirmed): a WRQ transfer commits only when
a DATA payload shorter than 512 bytes arrives — if every received DATA
carries at least 512 bytes, the loop never reaches the commit exit, so a
file whose length is a multiple of 512 must be terminated by a
zero-length DATA packet; reaching or slightly passing the advertised
`tsize` does not end the transfer, as the concrete 1024-byte run with
`tsize=1024` shows (DATA(3) of length 0 precedes the commit).  The
amendment: exceeding `tsize` by *more than 512 bytes* does abort the
session with `Error(DiskFull, "File size exceeds tsize")`, as the C9
counterexample shows. -/
theorem wrq_commit_requires_short_block :
    (∀ (client : TID) (maxSize : Nat) (tsize : Option Nat)
        (incoming : List RecvResult) (expected : Nat) (fileData : List Nat)
        (sent : List (TID × TftpPacket)),
      (∀ t pkt, some (t, pkt) ∈ incoming → 512 ≤ pkt.data.length) →
      (wrqLoop client maxSize tsize incoming expected fileData sent).outcome ≠
        WrqOutcome.committed) ∧
    wrqRun 0 1000000 [(tsizeName, strBytes "1024")]
        [some (0, dataPacket 1 (List.replicate 512 5)),
         some (0, dataPacket 2 (List.replicate 512 6)),
         some (0, dataPacket 3 [])] =
      ⟨[(0, oackPacket [(tsizeName, strBytes "1024")]),
        (0, ackPacket 1), (0, ackPacket 2), (0, ackPacket 3)],
        List.replicate 512 5 ++ List.replicate 512 6 ++ [],
        WrqOutcome.committed⟩ := by
  constructor
  · intro client maxSize tsize incoming
    induction incoming with
    | nil =>
      intro expected fileData sent hpay
      rw [wrqLoop]
      simp
    | cons ev rest ih =>
      intro expected fileData sent hpay
      match ev with
      | none =>
        rw [wrqLoop]
        simp
      | some (src, pkt) =>
        have hpkt : 512 ≤ pkt.data.length := hpay src pkt (by simp)
        rw [wrqLoop]
        by_cases h3 : pkt.op_code ≠ 3
        · rw [if_pos h3]
          simp
        rw [if_neg h3]
        by_cases hbm : pkt.block_number ≠ expected
        · rw [if_pos hbm]
          simp
        rw [if_neg hbm]
        by_cases hover : maxSize < (fileData ++ pkt.data).length
        · rw [if_pos hover]
          simp
        rw [if_neg hover]
        by_cases hts : tsizeExceeds tsize (fileData ++ pkt.data).length = true
        · rw [if_pos hts]
          simp
        rw [if_neg hts]
        rw [if_neg (by omega)]
        exact ih ((expected + 1) % 65536) (fileData ++ pkt.data)
          (sent ++ [(src, ackPacket expected)])
          (fun t pkt' h => hpay t pkt' (by simp [h]))
  · decide

set_option maxRecDepth 32768 in
/-- Witness for the universally quantified part of the amended C9: a
stream consisting of one full 512-byte DATA block cannot commit. -/
theorem wrq_commit_requires_short_block_witness :
    (wrqLoop 0 1000000 none [some (0, dataPacket 1 (List.replicate 512 5))]
        1 [] []).outcome ≠ WrqOutcome.committed :=
  wrq_commit_requires_short_block.1 0 1000000 none
    [some (0, dataPacket 1 (List.replicate 512 5))] 1 [] []
    (fun t pkt h => by
      simp only [List.mem_cons, List.not_mem_nil, or_false,
        Option.some.injEq, Prod.mk.injEq] at h
      obtain ⟨-, h⟩ := h
      subst h
      decide)

set_option maxRecDepth 32768 in
/-- Counterexample for C9 as stated: the client advertises `tsize=1` and
then streams two full 512-byte blocks.  The claim says the accumulated
byte count passing `tsize` never by itself ends the transfer; here the
second block pushes the count to 1024 > tsize + 512, and the session is
aborted with `Error(DiskFull, "File size exceeds tsize")` — ended purely
by the byte count having passed the advertised size, without commit. -/
theorem wrq_tsize_overrun_aborts :
    wrqRun 0 1000000 [(tsizeName, [49])]
        [some (0, dataPacket 1 (List.replicate 512 5)),
         some (0, dataPacket 2 (List.replicate 512 5))] =
      ⟨[(0, oackPacket [(tsizeName, [49])]), (0, ackPacket 1), (0, ackPacket 2),
        (0, errorPacket 3 msgFileSizeExceedsTsize)],
        List.replicate 1024 5, WrqOutcome.tsizeExceeded⟩ := by decide

end TFTPServer
